import Mathlib

/-
Verification development for the `minami` JSDoc template (src/publish.js).
The JavaScript source is shallowly embedded: each publish.js function is
translated to a Lean definition of the same name; host collaborators
(jsdoc helpers, fs, the template engine) are passed in as function
parameters, since they are outside this repository.
-/

namespace Minami

/-! ## JavaScript-semantics utilities -/

/-- Whitespace test used by the regex class `\s` (ASCII part; the inputs at
issue contain only ASCII whitespace). -/
def isWs (c : Char) : Bool :=
  c = ' ' || c = '\t' || c = '\n' || c = '\r' || c = '\x0b' || c = '\x0c'

/-- JavaScript string truthiness combined with defaulting, as in
`encoding = encoding || 'utf8'`: an absent or empty string falls back to
the default. -/
def jsOrElse (o : Option String) (dflt : String) : String :=
  match o with
  | some s => if s = "" then dflt else s
  | none => dflt

/-- JavaScript string truthiness for an optional string field: present and
non-empty. -/
def jsTruthyStr (o : Option String) : Bool :=
  match o with
  | some s => !(s = "")
  | none => false

/-- List-level model of JavaScript `s.replace(pat, rep)` with a plain string
pattern: replace the first occurrence of `pat` (an empty pattern matches at
position 0). -/
def replaceFirstL (pat rep : List Char) : List Char → List Char
  | [] => if pat.isPrefixOf ([] : List Char) then rep else []
  | c :: rest =>
      if pat.isPrefixOf (c :: rest) then rep ++ (c :: rest).drop pat.length
      else c :: replaceFirstL pat rep rest

/-- String-level model of JavaScript `s.replace(pat, rep)` (first occurrence
of a plain string pattern). -/
def jsReplaceFirst (s pat rep : String) : String :=
  ⟨replaceFirstL pat.data rep.data s.data⟩

/-- Model of `s.replace(/\\/g, '/')`: every backslash becomes a forward
slash. -/
def slashNormalize (s : String) : String :=
  ⟨s.data.map (fun c => if c = '\\' then '/' else c)⟩

/-- Drop the first `n` characters of a string (character-level, matching
the list embedding used throughout). -/
def strDrop (s : String) (n : Nat) : String :=
  ⟨s.data.drop n⟩

/-- Case-insensitive literal matcher used for the `/i` regex flag: strip
`pat` from the front of `s`, comparing characters through `Char.toLower`,
and return the remainder on success. -/
def ciStrip : List Char → List Char → Option (List Char)
  | [], s => some s
  | _ :: _, [] => none
  | p :: ps, c :: cs => if p.toLower = c.toLower then ciStrip ps cs else none

/-- Model of `url.split(/#/).pop()`: the part of the string after the last
`#` (the whole string if `#` does not occur). -/
def splitHashPop (s : String) : String :=
  ⟨(s.data.foldl (fun acc c => if c = '#' then [] else acc ++ [c]) [])⟩

/-- Model of `url.indexOf('#') > -1`. -/
def containsHash (s : String) : Bool :=
  s.data.contains '#'

/-! ## Data model

Doclets are the records handed over by the jsdoc host.  Fields that the
host may omit are `Option`s.  The `modules` field attached by
`attachModuleSymbols` holds references (heap indices) into the doclet
store, mirroring the JavaScript object graph. -/

structure TypeInfo where
  names : List String
  deriving DecidableEq

structure ParamItem where
  name : Option String
  optional : Bool
  nullable : Option Bool
  «variable» : Bool
  type : Option TypeInfo
  deriving DecidableEq

structure ReturnItem where
  type : Option TypeInfo
  nullable : Option Bool
  deriving DecidableEq

structure DocletMeta where
  path : Option String
  filename : String
  shortpath : Option String
  deriving DecidableEq

structure FormattedExample where
  caption : String
  code : String
  deriving DecidableEq

/-- An entry of a doclet's `examples` array: the host supplies raw strings;
the enrichment pass replaces each with a formatted caption/code record. -/
inductive ExampleVal where
  | raw (s : String)
  | fmt (e : FormattedExample)
  deriving DecidableEq

structure Doclet where
  kind : String
  name : String
  longname : String
  description : Option String
  type : Option TypeInfo
  params : Option (List ParamItem)
  returns : Option (List ReturnItem)
  examples : Option (List ExampleVal)
  see : Option (List String)
  meta : Option DocletMeta
  attribs : Option String
  signature : Option String
  id : Option String
  ancestors : Option (List String)
  modules : Option (List Nat)
  deriving DecidableEq

/-- A doclet with every field absent / empty: the `getD` default for heap
reads (the JavaScript code would fault on an invalid reference; the claims
only ever use valid ones). -/
def emptyDoclet : Doclet :=
  { kind := "", name := "", longname := "", description := none, type := none
    params := none, returns := none, examples := none, see := none
    meta := none, attribs := none, signature := none, id := none
    ancestors := none, modules := none }

/-! ## publish.js: signature derivation -/

/-- Embedding of `needsSignature` (publish.js lines 41-56). -/
def needsSignature (doclet : Doclet) : Bool :=
  if doclet.kind = "function" || doclet.kind = "class" then
    true
  else if doclet.kind = "typedef"
      && (match doclet.type with
          | some t => !t.names.isEmpty
          | none => false) then
    match doclet.type with
    | some t => t.names.any (fun n => n.toLower = "function")
    | none => false
  else
    false

/-- Embedding of `getSignatureAttributes` (publish.js lines 58-72). -/
def getSignatureAttributes (item : ParamItem) : List String :=
  (if item.optional then ["opt"] else []) ++
    (match item.nullable with
     | some true => ["nullable"]
     | some false => ["non-null"]
     | none => [])

/-- Embedding of `updateItemName` (publish.js lines 74-95).  The JavaScript
`indexOf`/`splice` pair removes the first `'opt'` entry; that is modelled
with `contains`/`erase`. -/
def updateItemName (item : ParamItem) : String :=
  let attributes := getSignatureAttributes item
  let itemName := item.name.getD ""
  let itemName := if item.variable then "&hellip;" ++ itemName else itemName
  if !attributes.isEmpty then
    let wrapped :=
      if attributes.contains "opt" then
        "<span class=\"optional-param\">[" ++ itemName ++ "]</span>"
      else itemName
    let attributes :=
      if attributes.contains "opt" then attributes.erase "opt" else attributes
    if !attributes.isEmpty then
      wrapped ++ "<span class=\"signature-attributes\">" ++
        String.intercalate ", " attributes ++ "</span>"
    else wrapped
  else itemName

/-- Embedding of `addParamAttributes` (publish.js lines 97-101): keep
top-level named params (name present, non-empty, without a dot). -/
def addParamAttributes (params : List ParamItem) : List String :=
  (params.filter (fun param =>
      jsTruthyStr param.name && !(param.name.getD "").data.contains '.')).map
    updateItemName

/-! ## External collaborators

The jsdoc helper library, the link registry, and the template engine are
host code, outside this repository.  They enter the embedding as a record
of opaque functions over which the theorems quantify. -/

structure EnrichEnv where
  /-- Model of `helper.createLink`, also standing for the value read back
  from `helper.longnameToUrl` right after
  `helper.registerLink(doclet.longname, link)`. -/
  createLink : Doclet → String
  /-- Model of `helper.getAncestorLinks(data, doclet)`. -/
  getAncestorLinks : Doclet → List String
  /-- Model of `helper.getAttribs` applied to a doclet. -/
  getAttribsDoclet : Doclet → List String
  /-- Model of `helper.getAttribs` applied to a returns item. -/
  getAttribsReturn : ReturnItem → List String
  /-- Model of `helper.htmlsafe`. -/
  htmlsafe : String → String
  /-- Model of `helper.linkto`. -/
  linkto : String → String → String

/-- Embedding of `buildItemTypeStrings` (publish.js lines 103-113), keyed on
the optional `type` field of the item. -/
def buildItemTypeStrings (E : EnrichEnv) (t : Option TypeInfo) : List String :=
  match t with
  | some ti => ti.names.map (fun n => E.linkto n (E.htmlsafe n))
  | none => []

/-- Embedding of `buildAttribsString` (publish.js lines 115-123). -/
def buildAttribsString (E : EnrichEnv) (attribs : List String) : String :=
  if !attribs.isEmpty then
    E.htmlsafe ("(" ++ String.intercalate ", " attribs ++ ") ")
  else ""

/-- Embedding of `addNonParamAttributes` (publish.js lines 125-133). -/
def addNonParamAttributes (E : EnrichEnv) (items : List ReturnItem) : List String :=
  items.foldl (fun types item => types ++ buildItemTypeStrings E item.type) []

/-- Embedding of `addSignatureParams` (publish.js lines 135-138). -/
def addSignatureParams (f : Doclet) : Doclet :=
  let params := match f.params with
    | some ps => addParamAttributes ps
    | none => []
  { f with signature := some ((f.signature.getD "") ++ "(" ++
      String.intercalate ", " params ++ ")") }

/-- Embedding of `addSignatureReturns` (publish.js lines 140-170). -/
def addSignatureReturns (E : EnrichEnv) (f : Doclet) : Doclet :=
  let attribs : List String :=
    match f.returns with
    | some rets =>
        rets.foldl (fun acc item =>
          (E.getAttribsReturn item).foldl
            (fun a attrib => if a.contains attrib then a else a ++ [attrib]) acc) []
    | none => []
  let attribsString :=
    match f.returns with
    | some _ => buildAttribsString E attribs
    | none => ""
  let returnTypes : List String :=
    match f.returns with
    | some rets => addNonParamAttributes E rets
    | none => []
  let returnTypesString :=
    if !returnTypes.isEmpty then
      " &rarr; " ++ attribsString ++ "\x7b" ++
        String.intercalate "|" returnTypes ++ "\x7d"
    else ""
  { f with signature := some ("<span class=\"signature\">" ++
      (f.signature.getD "") ++ "</span>" ++
      "<span class=\"type-signature\">" ++ returnTypesString ++ "</span>") }

/-- Embedding of `addSignatureTypes` (publish.js lines 172-177). -/
def addSignatureTypes (E : EnrichEnv) (f : Doclet) : Doclet :=
  let types := match f.type with
    | some _ => buildItemTypeStrings E f.type
    | none => []
  { f with signature := some ((f.signature.getD "") ++
      "<span class=\"type-signature\">" ++
      (if !types.isEmpty then " :" ++ String.intercalate "|" types else "") ++
      "</span>") }

/-- Embedding of `addAttribs` (publish.js lines 179-184). -/
def addAttribs (E : EnrichEnv) (f : Doclet) : Doclet :=
  { f with attribs := some ("<span class=\"type-signature\">" ++
      buildAttribsString E (E.getAttribsDoclet f) ++ "</span>") }

/-! ## publish.js: source paths -/

/-- One entry of the `sourceFiles` map built by `exports.publish`
(`{resolved, shortened}`, with `shortened` initially `null`). -/
structure SourceEntry where
  resolved : String
  shortened : Option String
  deriving DecidableEq

/-- Embedding of `shortenPaths` (publish.js lines 186-194): strip the first
occurrence of `commonPrefixStr` from each resolved path, then turn
backslashes into forward slashes. -/
def shortenPaths (files : List (String × SourceEntry)) (commonPrefixStr : String) :
    List (String × SourceEntry) :=
  files.map (fun fe =>
    (fe.1,
     { fe.2 with
       shortened :=
         some (slashNormalize (jsReplaceFirst fe.2.resolved commonPrefixStr "")) }))

/-- Embedding of `getPathFromDoclet` (publish.js lines 196-204).
`path.join` of the host is modelled as separator concatenation. -/
def getPathFromDoclet (doclet : Doclet) : Option String :=
  match doclet.meta with
  | none => none
  | some m =>
      if jsTruthyStr m.path && !(m.path.getD "" = "null") then
        some (m.path.getD "" ++ "/" ++ m.filename)
      else
        some m.filename

/-- Split a character list at `/` separators (the behaviour of JavaScript
`split('/')`, character-level so that kernel reduction works). -/
def splitSegs : List Char → List (List Char)
  | [] => [[]]
  | c :: rest =>
      if c = '/' then [] :: splitSegs rest
      else
        match splitSegs rest with
        | seg :: more => (c :: seg) :: more
        | [] => [[c]]

/-- Modelled from the spec: `path.commonPrefix` is host code (jsdoc), not
part of this repository's sources.  Section 4.3 of the spec describes it as
computing the longest common path prefix of the collected source paths;
this models that as the longest run of shared leading `/`-separated
segments, rendered with a trailing separator. -/
def commonPathPfx (paths : List String) : String :=
  let segs := paths.map (fun p => splitSegs p.data)
  let common :=
    match segs with
    | [] => []
    | s :: rest => rest.foldl (fun acc t =>
        (acc.zip t).takeWhile (fun q => q.1 = q.2) |>.map (fun q => q.1)) s
  match common with
  | [] => ""
  | _ => ⟨(common.map (fun seg => seg ++ ['/'])).flatten⟩

/-! ## publish.js: formatExample

`formatExample` (publish.js lines 295-308) matches
`/^\s*<caption>([\s\S]+?)<\/caption>(\s*[\n\r])([\s\S]+)$/i`.
The matcher below reproduces the regex engine's behaviour on this pattern:
a greedy leading `\s*` (deterministic, since `<` is not whitespace), the
case-insensitive literal `<caption>`, a lazy non-empty group 1 extended
until `</caption>` plus the rest of the pattern matches, a greedy `\s*`
whose final character must be a newline, and a non-empty group 3. -/

/-- The continuation `(\s*[\n\r])([\s\S]+)$`: returns group 3 on success.
Greediness of `\s*` is realised by preferring the longer whitespace run and
falling back to matching `[\n\r]` at the current character. -/
def contMatch : List Char → Option (List Char)
  | [] => none
  | c :: rest =>
      if isWs c then
        match contMatch rest with
        | some r => some r
        | none =>
            if (c = '\n' || c = '\r') && !rest.isEmpty then some rest
            else none
      else none

/-- Lazy scan for group 1 (`[\s\S]+?` followed by `</caption>` and the
continuation): consume at least one character, try to close, extend on
failure. -/
def lazyScan (accRev : List Char) : List Char → Option (List Char × List Char)
  | [] => none
  | c :: rest =>
      let accRev := c :: accRev
      match ciStrip "</caption>".data rest with
      | some after =>
          match contMatch after with
          | some code => some (accRev.reverse, code)
          | none => lazyScan accRev rest
      | none => lazyScan accRev rest

/-- The full regex of `formatExample`: on success, the pair
(group 1, group 3). -/
def matchCaption (ex : List Char) : Option (List Char × List Char) :=
  match ciStrip "<caption>".data (ex.dropWhile isWs) with
  | some rest => lazyScan [] rest
  | none => none

/-- Embedding of `formatExample` (publish.js lines 295-308): `caption || ''`
and `code || example` applied to the match groups (`example` is renamed
`ex`, being a Lean keyword). -/
def formatExample (ex : String) : FormattedExample :=
  match matchCaption ex.data with
  | some (g1, g3) =>
      { caption := if g1.isEmpty then "" else ⟨g1⟩
        code := if g3.isEmpty then ex else ⟨g3⟩ }
  | none => { caption := "", code := ex }

/-! ## publish.js: hashToLink and the enrichment passes -/

/-- Model of `url.replace(/(#.+|$)/, hash)`: the first match of the regex is either
the first `#` that still has a character after it (together with everything
to the end), or the end of the string. -/
def replaceHashOrEnd (hash : String) : List Char → List Char
  | [] => hash.data
  | '#' :: _ :: _ => hash.data
  | c :: rest => c :: replaceHashOrEnd hash rest

/-- Embedding of `hashToLink` (publish.js lines 32-39). -/
def hashToLink (E : EnrichEnv) (doclet : Doclet) (hash : String) : String :=
  let isHash := match hash.data with
    | '#' :: _ :: _ => true
    | _ => false
  if isHash then
    let url := E.createLink doclet
    let url : String := ⟨replaceHashOrEnd hash url.data⟩
    "<a href=\"" ++ url ++ "\">" ++ hash ++ "</a>"
  else hash

/-- The per-doclet part of the first `data().each` pass of `exports.publish`
(publish.js lines 378-401): blank out `attribs`, format examples, link
see-references. -/
def enrichDocletPass1 (E : EnrichEnv) (doclet : Doclet) : Doclet :=
  let doclet := { doclet with attribs := some "" }
  let doclet := { doclet with examples :=
    match doclet.examples with
    | some exs => some (exs.map (fun ex =>
        match ex with
        | ExampleVal.raw s => ExampleVal.fmt (formatExample s)
        | ExampleVal.fmt e => ExampleVal.fmt e))
    | none => none }
  let doclet := { doclet with see :=
    match doclet.see with
    | some items => some (items.map (fun item => hashToLink E doclet item))
    | none => none }
  doclet

/-- Pass-2 step, publish.js lines 456-464: attach `meta.shortpath` when the
`sourceFiles` lookup yields a truthy shortened path. -/
def setShortpath (shortOf : String → Option String) (doclet : Doclet) : Doclet :=
  match doclet.meta with
  | some m =>
      match (getPathFromDoclet doclet).bind shortOf with
      | some short =>
          if !(short = "") then
            { doclet with meta := some { m with shortpath := some short } }
          else doclet
      | none => doclet
  | none => doclet

/-- Pass-2 step, publish.js lines 466-473: set the doclet id from the
registered url (`url` is the link registered for `doclet.longname` just
before, publish.js lines 452-454). -/
def setDocletId (url : String) (doclet : Doclet) : Doclet :=
  { doclet with id := some (if containsHash url then splitHashPop url
                            else doclet.name) }

/-- Pass-2 step, publish.js lines 475-480: signature parameters, returns
and attribs for doclets that need a signature. -/
def setSignatureStep (E : EnrichEnv) (doclet : Doclet) : Doclet :=
  if needsSignature doclet then
    addAttribs E (addSignatureReturns E (addSignatureParams doclet))
  else doclet

/-- Pass-2 step, publish.js line 482: ancestor links. -/
def setAncestors (E : EnrichEnv) (doclet : Doclet) : Doclet :=
  { doclet with ancestors := some (E.getAncestorLinks doclet) }

/-- Pass-2 step, publish.js lines 484-487: members get signature types and
attribs. -/
def memberStep (E : EnrichEnv) (doclet : Doclet) : Doclet :=
  if doclet.kind = "member" then addAttribs E (addSignatureTypes E doclet)
  else doclet

/-- Pass-2 step, publish.js lines 489-493: constants get signature types
and attribs and become members. -/
def constantStep (E : EnrichEnv) (doclet : Doclet) : Doclet :=
  if doclet.kind = "constant" then
    { addAttribs E (addSignatureTypes E doclet) with kind := "member" }
  else doclet

/-- The per-doclet part of the second `data().each` pass of
`exports.publish` (publish.js lines 451-494): shortpath, id, signature,
attribs, ancestors, and the constant-to-member rewrite.  `shortOf` is the
`sourceFiles[path].shortened` lookup built earlier in `publish`. -/
def enrichDocletPass2 (E : EnrichEnv) (shortOf : String → Option String)
    (doclet : Doclet) : Doclet :=
  constantStep E (memberStep E (setAncestors E (setSignatureStep E
    (setDocletId (E.createLink doclet) (setShortpath shortOf doclet)))))

/-- Both enrichment passes applied to one doclet (the passes iterate the
whole collection, but act on each record independently). -/
def enrichDoclet (E : EnrichEnv) (shortOf : String → Option String)
    (doclet : Doclet) : Doclet :=
  enrichDocletPass2 E shortOf (enrichDocletPass1 E doclet)

/-! ## publish.js: attachModuleSymbols

The JavaScript object graph is modelled as a heap: a list of doclet cells
addressed by index.  `doclets` and `modules` are lists of references into
that heap, exactly as the JavaScript arrays hold references into the
shared record collection.  `doop(symbol)` allocates a fresh cell. -/

abbrev Store := List Doclet

/-- Read a heap cell. -/
def storeGet (st : Store) (r : Nat) : Doclet :=
  st.getD r emptyDoclet

/-- The display-name rewrite of `attachModuleSymbols`:
`symbol.name.replace('module:', '(require("') + '"))'`. -/
def rewriteModuleName (n : String) : String :=
  jsReplaceFirst n "module:" "(require(\"" ++ "\"))"

/-- One `doop(symbol)` allocation followed by the display-name rewrite on
the fresh copy (publish.js lines 274-281): append the copy to the heap and
record its reference. -/
def doopAlloc (acc : Store × List Nat) (s : Nat) : Store × List Nat :=
  let symbol := storeGet acc.1 s
  let symbol :=
    if symbol.kind = "class" || symbol.kind = "function" then
      { symbol with name := rewriteModuleName symbol.name }
    else symbol
  (acc.1 ++ [symbol], acc.2 ++ [acc.1.length])

/-- The body of the `.map` over one module (publish.js lines 266-284):
filter the looked-up symbols, allocate a `doop` copy of each survivor with
the rewritten display name, and assign the module's `modules` field. -/
def attachOneModule (st : Store) (symbols : String → List Nat) (r : Nat) : Store :=
  let m := storeGet st r
  let syms := symbols m.longname
  if syms.isEmpty then st
  else
    let kept := syms.filter (fun s =>
      jsTruthyStr (storeGet st s).description || (storeGet st s).kind = "class")
    let alloc := kept.foldl doopAlloc (st, [])
    alloc.1.set r { storeGet alloc.1 r with modules := some alloc.2 }

/-- Embedding of `attachModuleSymbols` (publish.js lines 257-285): build the
longname lookup table from the `doclets` references, then process each
module.  The result is the heap after the call. -/
def attachModuleSymbols (st : Store) (doclets modules : List Nat) : Store :=
  let symbols : String → List Nat := fun ln =>
    doclets.filter (fun r => (storeGet st r).longname = ln)
  modules.foldl (fun cur r => attachOneModule cur symbols r) st

/-- A doclet with its `modules` field cleared: the projection used to state
that `attachModuleSymbols` changes nothing but `modules`. -/
def sansModules (d : Doclet) : Doclet :=
  { d with modules := none }

/-! ## publish.js: generate, generateSourceFiles, generateTutorial -/

/-- The `docData` record handed to `view.render('container.tmpl', ...)`. -/
structure DocData (α : Type) where
  type : String
  title : String
  docs : List α
  deriving DecidableEq

/-- The record a single `generate` call writes: the rendered page together
with the output path and the encoding passed to `fs.writeFileSync`. -/
structure Page (α : Type) where
  type : String
  title : String
  docs : List α
  outpath : String
  html : String
  encoding : String
  deriving DecidableEq

/-- The host collaborators used by page generation: the template engine,
link resolution, filename uniquing, the filesystem read, and HTML
escaping. -/
structure GenEnv (α : Type) where
  render : String → DocData α → String
  resolveLinks : String → String
  getUniqueFilename : String → String
  readFile : String → String → Except String String
  htmlsafe : String → String
  outdir : String

/-- Embedding of `generate` (publish.js lines 206-222).  Note the write
encoding is the literal `'utf8'` (line 221). -/
def generate {α : Type} (env : GenEnv α) (type title : String) (docs : List α)
    (filename : String) (resolveLinks : Bool) : Page α :=
  let docData : DocData α := { type := type, title := title, docs := docs }
  let outpath := env.outdir ++ "/" ++ filename
  let html := env.render "container.tmpl" docData
  let html := if resolveLinks then env.resolveLinks html else html
  { type := type, title := title, docs := docs, outpath := outpath
    html := html, encoding := "utf8" }

/-- The `{kind: 'source', code: ...}` record built per source file. -/
structure SourceDoc where
  kind : String
  code : String
  deriving DecidableEq

/-- A `sourceFiles` entry as it stands when `generateSourceFiles` runs:
`shortenPaths` has already filled in `shortened`. -/
structure ShortEntry where
  resolved : String
  shortened : String
  deriving DecidableEq

/-- Embedding of `generateSourceFiles` (publish.js lines 224-244).  Returns
the `logger.error` messages and the generated pages, in order.  On a read
failure the error is logged and `source` stays `undefined` (here: `none`),
but the page is still generated. -/
def generateSourceFiles (env : GenEnv (Option SourceDoc))
    (sourceFiles : List (String × ShortEntry)) (encoding : Option String) :
    List String × List (Page (Option SourceDoc)) :=
  let enc := jsOrElse encoding "utf8"
  sourceFiles.foldl (fun acc fe =>
    let sourceOutfile := env.getUniqueFilename fe.2.shortened
    match env.readFile fe.2.resolved enc with
    | Except.ok contents =>
        (acc.1,
         acc.2 ++ [generate env "Source" fe.2.shortened
           [some { kind := "source", code := env.htmlsafe contents }]
           sourceOutfile false])
    | Except.error e =>
        (acc.1 ++ ["Error while generating source file " ++ fe.1 ++ ": " ++ e],
         acc.2 ++ [generate env "Source" fe.2.shortened
           [(none : Option SourceDoc)] sourceOutfile false]))
    (([] : List String), ([] : List (Page (Option SourceDoc))))

/-- The `tutorialData` record handed to `view.render('tutorial.tmpl', ...)`
(children are opaque here). -/
structure TutorialData where
  title : String
  header : String
  content : String
  children : List String
  deriving DecidableEq

/-- The record one `generateTutorial` call writes. -/
structure TutPage where
  outpath : String
  html : String
  encoding : String
  deriving DecidableEq

/-- Embedding of `generateTutorial` (publish.js lines 556-570): render
`tutorial.tmpl`, resolve links, and write with the literal `'utf8'`
encoding (line 569).  `header` and `content` stand for `tutorial.title` and
`tutorial.parse()`. -/
def generateTutorial (render : String → TutorialData → String)
    (resolveLinks : String → String) (outdir : String)
    (title header content : String) (children : List String)
    (filename : String) : TutPage :=
  let tutorialData : TutorialData :=
    { title := title, header := header, content := content, children := children }
  let tutorialPath := outdir ++ "/" ++ filename
  let html := render "tutorial.tmpl" tutorialData
  let html := resolveLinks html
  { outpath := tutorialPath, html := html, encoding := "utf8" }

/-! ## publish.js: user static-file copying (lines 428-444)

The inner loop is
```
files.forEach(filename => {
    const destDir = fs.toDir(filename.replace(sourcePath, OUTDIR));
    fs.mkPath(destDir);
    fs.copyFileSync(fileName, destDir);
});
```
The copy call reads `fileName` (capital N).  The only `fileName` binding in
publish.js is the parameter of the theme-static `forEach` callback at line
415, whose scope does not reach line 441, so `fileName` is an undeclared
identifier here and evaluating it throws a `ReferenceError`, which is
modelled as `Except.error`. -/

/-- Embedding of the user static-file copy pass (publish.js lines 428-444).
`scan` models `fileScanner.scan([path], 10, fileFilter)` and `toDir`
models `fs.toDir`; on success the result would be the list of
(source, destination) copies performed. -/
def copyUserStaticFiles (scan : String → List String) (toDir : String → String)
    (outdir : String) (filePaths : List String) :
    Except String (List (String × String)) :=
  filePaths.foldlM (fun acc p =>
    let files := scan p
    let sourcePath := toDir p
    files.foldlM (fun (_acc2 : List (String × String)) filename =>
      let _destDir := toDir (jsReplaceFirst filename sourcePath outdir)
      (Except.error "ReferenceError: fileName is not defined" :
        Except String (List (String × String)))) acc) []

/-! ## Witness fixtures and specification views -/

/-- A class doclet exported by `module:foo`, with a description. -/
def classFoo : Doclet :=
  { emptyDoclet with
    kind := "class"
    name := "module:foo"
    longname := "module:foo"
    description := some "Exported class." }

/-- The `module:foo` module doclet. -/
def moduleFoo : Doclet :=
  { emptyDoclet with kind := "module", name := "foo", longname := "module:foo" }

/-- A function doclet with the module's longname but no description. -/
def funcFooNoDesc : Doclet :=
  { emptyDoclet with
    kind := "function"
    name := "module:foo"
    longname := "module:foo" }

/-- A concrete instantiation of the host helpers, for witnesses. -/
def constEnrichEnv : EnrichEnv :=
  { createLink := fun _ => "doc.html"
    getAncestorLinks := fun _ => []
    getAttribsDoclet := fun _ => []
    getAttribsReturn := fun _ => []
    htmlsafe := fun s => s
    linkto := fun _ b => b }

/-- The log entry `generateSourceFiles` produces for a file, if any. -/
def sourceLogOf (env : GenEnv (Option SourceDoc)) (enc : String)
    (fe : String × ShortEntry) : Option String :=
  match env.readFile fe.2.resolved enc with
  | Except.error e =>
      some ("Error while generating source file " ++ fe.1 ++ ": " ++ e)
  | Except.ok _ => none

/-- The page `generateSourceFiles` produces for a file. -/
def sourcePageOf (env : GenEnv (Option SourceDoc)) (enc : String)
    (fe : String × ShortEntry) : Page (Option SourceDoc) :=
  generate env "Source" fe.2.shortened
    (match env.readFile fe.2.resolved enc with
     | Except.ok contents => [some { kind := "source", code := env.htmlsafe contents }]
     | Except.error _ => [(none : Option SourceDoc)])
    (env.getUniqueFilename fe.2.shortened) false

/-- A concrete generation environment whose read fails on one path, for the
C3 and C9 witnesses and the C9 counterexample. -/
def genEnvC : GenEnv (Option SourceDoc) :=
  { render := fun _ _ => "<html></html>"
    resolveLinks := fun s => s
    getUniqueFilename := fun s => s
    readFile := fun p _ => if p = "/src/bad.js" then Except.error "EACCES"
                           else Except.ok "var a < 1;"
    htmlsafe := fun s => ⟨(s.data.map (fun c => if c = '<' then "&lt;".data else [c])).flatten⟩
    outdir := "/out" }

/-- A function doclet with a parameter, for the C1 witness. -/
def funcParamDoclet : Doclet :=
  { emptyDoclet with
    kind := "function"
    name := "f"
    longname := "f"
    params := some [{ name := some "x", optional := false, nullable := none,
                      «variable» := false, type := none }] }

/-- A typedef doclet whose type names include `Function`, for the C1
witness. -/
def typedefFnDoclet : Doclet :=
  { emptyDoclet with
    kind := "typedef"
    name := "Cb"
    longname := "Cb"
    type := some { names := ["Function"] } }

/-- A constant doclet with a raw example and a hash see-reference, for the
C5 counterexample. -/
def constExampleDoclet : Doclet :=
  { emptyDoclet with
    kind := "constant"
    name := "LIMIT"
    longname := "LIMIT"
    examples := some [ExampleVal.raw "a"]
    see := some ["#x"] }

/-- The host-supplied data of a doclet that enrichment must not change:
name, longname, description, type, params, returns, and the path/filename
part of `meta`. -/
def hostFields (d : Doclet) :
    String × String × Option String × Option TypeInfo ×
      Option (List ParamItem) × Option (List ReturnItem) ×
      Option (Option String × String) :=
  (d.name, d.longname, d.description, d.type, d.params, d.returns,
   (d.meta).map (fun m => (m.path, m.filename)))

/-- Head of a character list exists and is not regex whitespace. -/
def headNotWs : List Char → Bool
  | [] => false
  | c :: _ => !isWs c

/-- An optional, nullable parameter item, for the C10 witness. -/
def itemOptNullable : ParamItem :=
  { name := some "p", optional := true, nullable := some true,
    «variable» := false, type := none }

/-! ## General helper lemmas -/

theorem strAppendEmpty (s : String) : s ++ "" = s := by
  apply String.ext
  simp [String.data_append]

theorem strAppendAssoc (a b c : String) : a ++ b ++ c = a ++ (b ++ c) := by
  apply String.ext
  simp [String.data_append]

theorem replaceFirstL_strips (pat s : List Char)
    (h : pat.isPrefixOf s = true) : replaceFirstL pat [] s = s.drop pat.length := by
  cases s with
  | nil =>
      unfold replaceFirstL
      split <;> simp
  | cons c cs =>
      unfold replaceFirstL
      rw [if_pos h]
      simp

/-! ## Concrete doclets and environments used by witnesses -/

/-! ## C10: updateItemName -/

/-- C10: `updateItemName` renders the nullability marker three ways — a
`signature-attributes` span containing `nullable` when `nullable` is
exactly `true`, one containing `non-null` when it is exactly `false`, and
no marker when it is absent; an optional item's name is wrapped in square
brackets inside an `optional-param` span, and a variable item's name is
prefixed with the `&hellip;` entity. -/
theorem updateItemName_markers (item : ParamItem) :
    updateItemName item =
      (if item.optional then
        "<span class=\"optional-param\">[" ++
          (if item.variable then "&hellip;" ++ item.name.getD ""
           else item.name.getD "") ++ "]</span>"
       else
        (if item.variable then "&hellip;" ++ item.name.getD ""
         else item.name.getD "")) ++
      (match item.nullable with
       | some true => "<span class=\"signature-attributes\">nullable</span>"
       | some false => "<span class=\"signature-attributes\">non-null</span>"
       | none => "") := by
  obtain ⟨nm, opt, nl, vr, ty⟩ := item
  cases opt <;> cases vr <;> rcases nl with _ | _ | _ <;>
    simp [updateItemName, getSignatureAttributes, String.intercalate,
      String.intercalate.go, strAppendEmpty, strAppendAssoc]

/-- Witness for C10 at a concrete optional nullable item. -/
theorem updateItemName_markers_witness :
    updateItemName itemOptNullable =
      "<span class=\"optional-param\">[p]</span><span class=\"signature-attributes\">nullable</span>" :=
  (updateItemName_markers itemOptNullable).trans (by decide)

/-! ## C2: the user static-file copy pass -/

/-- C2 (code bug): with one include path under which the scanner discovers
two files, the copy pass does not produce the two copies the claim
requires — the copy call reads the out-of-scope identifier `fileName`
(publish.js line 441), so the pass throws a ReferenceError at the first
discovered file and performs no copy at all. -/
theorem copyUserStaticFiles_referenceError :
    copyUserStaticFiles (fun _ => ["/in/a.css", "/in/b.css"]) (fun s => s)
        "/out" ["/in"] =
      Except.error "ReferenceError: fileName is not defined" := by
  rfl

/-! ## C4 and C7: attachModuleSymbols -/

theorem doopAllocFold_length (kept : List Nat) :
    ∀ acc : Store × List Nat, acc.1.length ≤ (kept.foldl doopAlloc acc).1.length := by
  induction kept with
  | nil => intro acc; simp
  | cons s rest ih =>
      intro acc
      have h := ih (doopAlloc acc s)
      have h2 : acc.1.length ≤ (doopAlloc acc s).1.length := by
        simp [doopAlloc]
      simpa using Nat.le_trans h2 h

theorem storeGet_append (st ext : Store) (i : Nat) (h : i < st.length) :
    storeGet (st ++ ext) i = storeGet st i := by
  simp [storeGet, List.getD, List.getElem?_append_left h]

theorem storeGet_set_ne (st : Store) (r i : Nat) (v : Doclet) (h : i ≠ r) :
    storeGet (st.set r v) i = storeGet st i := by
  simp [storeGet, List.getD, List.getElem?_set_ne (Ne.symm h)]

theorem storeGet_set_self (st : Store) (r : Nat) (v : Doclet)
    (h : r < st.length) : storeGet (st.set r v) r = v := by
  simp [storeGet, List.getD, List.getElem?_set_self (by simpa using h)]

theorem doopAllocFold_get (kept : List Nat) :
    ∀ (acc : Store × List Nat) (i : Nat), i < acc.1.length →
      storeGet (kept.foldl doopAlloc acc).1 i = storeGet acc.1 i := by
  induction kept with
  | nil => intro acc i _; rfl
  | cons s rest ih =>
      intro acc i hi
      have hstep : storeGet (doopAlloc acc s).1 i = storeGet acc.1 i := by
        simp only [doopAlloc]
        exact storeGet_append acc.1 _ i hi
      have hlen : i < (doopAlloc acc s).1.length := by
        simp only [doopAlloc, List.length_append]
        omega
      calc storeGet ((s :: rest).foldl doopAlloc acc).1 i
      _ = storeGet (rest.foldl doopAlloc (doopAlloc acc s)).1 i := rfl
      _ = storeGet (doopAlloc acc s).1 i := ih (doopAlloc acc s) i hlen
      _ = storeGet acc.1 i := hstep

theorem attachOneModule_length (st : Store) (symbols : String → List Nat)
    (r : Nat) : st.length ≤ (attachOneModule st symbols r).length := by
  simp only [attachOneModule]
  split
  · exact Nat.le_refl _
  · simpa [List.length_set] using doopAllocFold_length _ (st, [])

theorem attachOneModule_get_ne (st : Store) (symbols : String → List Nat)
    (r i : Nat) (hi : i < st.length) (hne : i ≠ r) :
    storeGet (attachOneModule st symbols r) i = storeGet st i := by
  simp only [attachOneModule]
  split
  · rfl
  · rw [storeGet_set_ne _ _ _ _ hne]
    exact doopAllocFold_get _ (st, []) i hi

theorem attachOneModule_sansModules (st : Store) (symbols : String → List Nat)
    (r i : Nat) (hi : i < st.length) :
    sansModules (storeGet (attachOneModule st symbols r) i) =
      sansModules (storeGet st i) := by
  by_cases hne : i = r
  · subst hne
    simp only [attachOneModule]
    split
    · rfl
    · rw [storeGet_set_self _ _ _
        (Nat.lt_of_lt_of_le hi (doopAllocFold_length _ (st, [])))]
      rw [show ∀ (d : Doclet) (l : List Nat),
            sansModules { d with modules := some l } = sansModules d from
          fun _ _ => rfl]
      rw [doopAllocFold_get _ (st, []) i hi]
  · rw [attachOneModule_get_ne st symbols r i hi hne]

theorem attachFold_frame (modules : List Nat) (symbols : String → List Nat) :
    ∀ cur : Store,
      (∀ i, i < cur.length → i ∉ modules →
        storeGet (modules.foldl (fun c r => attachOneModule c symbols r) cur) i =
          storeGet cur i)
      ∧ (∀ i, i < cur.length →
        sansModules
            (storeGet (modules.foldl (fun c r => attachOneModule c symbols r) cur) i) =
          sansModules (storeGet cur i)) := by
  induction modules with
  | nil => intro cur; exact ⟨fun i _ _ => rfl, fun i _ => rfl⟩
  | cons r rest ih =>
      intro cur
      constructor
      · intro i hi hmem
        have hne : i ≠ r := fun h => hmem (h ▸ List.mem_cons_self r rest)
        have hrest : i ∉ rest := fun h => hmem (List.mem_cons_of_mem r h)
        have hi2 : i < (attachOneModule cur symbols r).length :=
          Nat.lt_of_lt_of_le hi (attachOneModule_length cur symbols r)
        calc storeGet ((r :: rest).foldl (fun c r => attachOneModule c symbols r) cur) i
        _ = storeGet (rest.foldl (fun c r => attachOneModule c symbols r)
              (attachOneModule cur symbols r)) i := rfl
        _ = storeGet (attachOneModule cur symbols r) i :=
              (ih (attachOneModule cur symbols r)).1 i hi2 hrest
        _ = storeGet cur i := attachOneModule_get_ne cur symbols r i hi hne
      · intro i hi
        have hi2 : i < (attachOneModule cur symbols r).length :=
          Nat.lt_of_lt_of_le hi (attachOneModule_length cur symbols r)
        calc sansModules
              (storeGet ((r :: rest).foldl (fun c r => attachOneModule c symbols r) cur) i)
        _ = sansModules (storeGet (rest.foldl (fun c r => attachOneModule c symbols r)
              (attachOneModule cur symbols r)) i) := rfl
        _ = sansModules (storeGet (attachOneModule cur symbols r) i) :=
              (ih (attachOneModule cur symbols r)).2 i hi2
        _ = sansModules (storeGet cur i) :=
              attachOneModule_sansModules cur symbols r i hi

/-- C4 counterexample: a module doclet that is in the collection handed to
`attachModuleSymbols` is mutated by the call — its `modules` field changes
from `none` to an attached list — so "every original doclet's `name` field
(and every other field) is unchanged" is false as stated. -/
theorem attachModuleSymbols_mutates_modules_field :
    storeGet (attachModuleSymbols [moduleFoo] [0] [0]) 0 ≠ moduleFoo := by
  decide

/-- C4 (amended): `attachModuleSymbols` mutates the shared record
collection only by assigning each module's `modules` field: every heap
cell not referenced by the `modules` argument is completely unchanged, and
every original cell — module or not — keeps every field other than
`modules` (in particular `name`); the display-name rewrite happens on
freshly allocated copies only. -/
theorem attachModuleSymbols_frame (st : Store) (doclets modules : List Nat) :
    (∀ i, i < st.length → i ∉ modules →
      storeGet (attachModuleSymbols st doclets modules) i = storeGet st i)
    ∧ (∀ i, i < st.length →
      sansModules (storeGet (attachModuleSymbols st doclets modules) i) =
        sansModules (storeGet st i)) := by
  unfold attachModuleSymbols
  exact attachFold_frame modules _ st

/-- Witness for the amended C4 at a concrete heap: the class cell (index 0,
not a module reference) is untouched, and the module cell keeps every field
but `modules`. -/
theorem attachModuleSymbols_frame_witness :
    storeGet (attachModuleSymbols [classFoo, moduleFoo] [0] [1]) 0 = storeGet [classFoo, moduleFoo] 0
    ∧ sansModules (storeGet (attachModuleSymbols [classFoo, moduleFoo] [0] [1]) 1) =
        sansModules (storeGet [classFoo, moduleFoo] 1) :=
  ⟨(attachModuleSymbols_frame [classFoo, moduleFoo] [0] [1]).1 0 (by decide) (by decide),
   (attachModuleSymbols_frame [classFoo, moduleFoo] [0] [1]).2 1 (by decide)⟩

/-- C7: with a module doclet `module:foo` and a class doclet of the same
longname carrying a description (plus a descriptionless function that must
be filtered out), attaching module symbols gives the module a `modules`
list containing exactly the class — as a fresh copy (cell 3) whose display
name has been rewritten to contain `require("foo")`. -/
theorem attachModuleSymbols_module_foo :
    attachModuleSymbols [classFoo, moduleFoo, funcFooNoDesc] [0, 2] [1] =
      [classFoo, { moduleFoo with modules := some [3] }, funcFooNoDesc,
        { classFoo with name := "(require(\"foo\"))" }]
    ∧ (storeGet (attachModuleSymbols [classFoo, moduleFoo, funcFooNoDesc] [0, 2] [1]) 3).name =
        "(" ++ "require(\"foo\")" ++ ")" := by
  constructor
  · decide
  · decide

/-! ## C6: path shortening -/

/-- C6: on the spec's example the common path prefix is `/a/b/` and the
shortened paths are `x.js` and `c/y.js`; in general, for any file map and
any common prefix that is a genuine string prefix of every resolved path,
`shortenPaths` strips that prefix from each resolved path and replaces
every backslash in the result with a forward slash.  (`path.commonPrefix`
itself is host code; `commonPathPfx` is modelled from the spec.) -/
theorem shortenPaths_spec :
    (commonPathPfx ["/a/b/x.js", "/a/b/c/y.js"] = "/a/b/")
    ∧ (shortenPaths
        [("/a/b/x.js", { resolved := "/a/b/x.js", shortened := none }),
         ("/a/b/c/y.js", { resolved := "/a/b/c/y.js", shortened := none })]
        "/a/b/" =
       [("/a/b/x.js", { resolved := "/a/b/x.js", shortened := some "x.js" }),
        ("/a/b/c/y.js", { resolved := "/a/b/c/y.js", shortened := some "c/y.js" })])
    ∧ (∀ (files : List (String × SourceEntry)) (pfx : String),
        (∀ fe ∈ files, pfx.data.isPrefixOf fe.2.resolved.data = true) →
        shortenPaths files pfx =
          files.map (fun fe =>
            (fe.1,
             { fe.2 with
               shortened :=
                 some (slashNormalize (strDrop fe.2.resolved pfx.data.length)) }))) := by
  refine ⟨by decide, by decide, ?_⟩
  intro files pfx h
  unfold shortenPaths
  apply List.map_congr_left
  intro fe hfe
  have hrepl : jsReplaceFirst fe.2.resolved pfx "" =
      strDrop fe.2.resolved pfx.data.length := by
    unfold jsReplaceFirst strDrop
    rw [show ("" : String).data = [] from rfl]
    rw [replaceFirstL_strips pfx.data fe.2.resolved.data (h fe hfe)]
  rw [hrepl]

/-- Witness for the general clause of C6, at a concrete file map with a
backslashed resolved path. -/
theorem shortenPaths_spec_witness :
    shortenPaths [("k", { resolved := "C:\\src\\a\\b.js", shortened := none })]
        "C:\\src\\" =
      [("k", { resolved := "C:\\src\\a\\b.js", shortened := some "a/b.js" })] := by
  have h := shortenPaths_spec.2.2
    [("k", { resolved := "C:\\src\\a\\b.js", shortened := none })] "C:\\src\\"
    (by decide)
  rw [h]
  decide

/-! ## C3 and C9: source-file pages, logging, and write encodings -/

theorem generateSourceFiles_fold (env : GenEnv (Option SourceDoc))
    (enc : String) (files : List (String × ShortEntry)) :
    ∀ acc : List String × List (Page (Option SourceDoc)),
      files.foldl (fun acc fe =>
        let sourceOutfile := env.getUniqueFilename fe.2.shortened
        match env.readFile fe.2.resolved enc with
        | Except.ok contents =>
            (acc.1,
             acc.2 ++ [generate env "Source" fe.2.shortened
               [some { kind := "source", code := env.htmlsafe contents }]
               sourceOutfile false])
        | Except.error e =>
            (acc.1 ++ ["Error while generating source file " ++ fe.1 ++ ": " ++ e],
             acc.2 ++ [generate env "Source" fe.2.shortened
               [(none : Option SourceDoc)] sourceOutfile false])) acc =
      (acc.1 ++ files.filterMap (sourceLogOf env enc),
       acc.2 ++ files.map (sourcePageOf env enc)) := by
  induction files with
  | nil => intro acc; simp
  | cons fe rest ih =>
      intro acc
      rw [List.foldl_cons, ih]
      cases hread : env.readFile fe.2.resolved enc with
      | ok contents =>
          simp [sourceLogOf, sourcePageOf, hread, List.filterMap_cons]
      | error e =>
          simp [sourceLogOf, sourcePageOf, hread, List.filterMap_cons]

/-- Closed form of `generateSourceFiles`: one log entry per unreadable
file, one page per file. -/
theorem generateSourceFiles_eq (env : GenEnv (Option SourceDoc))
    (files : List (String × ShortEntry)) (encoding : Option String) :
    generateSourceFiles env files encoding =
      (files.filterMap (sourceLogOf env (jsOrElse encoding "utf8")),
       files.map (sourcePageOf env (jsOrElse encoding "utf8"))) := by
  unfold generateSourceFiles
  simpa using generateSourceFiles_fold env (jsOrElse encoding "utf8") files ([], [])

/-- C3: during source-listing generation every file yields a page
(generation continues past failures); a file whose read fails contributes a
log entry built from the file name and the underlying message and its page
carries no source record (`[none]` — the contents are omitted); a file read
successfully is rendered on its own page with its contents HTML-escaped. -/
theorem generateSourceFiles_error_handling (env : GenEnv (Option SourceDoc))
    (files : List (String × ShortEntry)) (encoding : Option String) :
    ((generateSourceFiles env files encoding).2.length = files.length)
    ∧ ((generateSourceFiles env files encoding).1 =
        files.filterMap (sourceLogOf env (jsOrElse encoding "utf8")))
    ∧ (∀ fe ∈ files, ∀ e,
        env.readFile fe.2.resolved (jsOrElse encoding "utf8") = Except.error e →
        ("Error while generating source file " ++ fe.1 ++ ": " ++ e) ∈
            (generateSourceFiles env files encoding).1
          ∧ (sourcePageOf env (jsOrElse encoding "utf8") fe).docs =
              [(none : Option SourceDoc)])
    ∧ (∀ fe ∈ files, ∀ contents,
        env.readFile fe.2.resolved (jsOrElse encoding "utf8") = Except.ok contents →
        (sourcePageOf env (jsOrElse encoding "utf8") fe).docs =
            [some { kind := "source", code := env.htmlsafe contents }]
          ∧ sourcePageOf env (jsOrElse encoding "utf8") fe ∈
              (generateSourceFiles env files encoding).2) := by
  rw [generateSourceFiles_eq]
  refine ⟨by simp, rfl, ?_, ?_⟩
  · intro fe hfe e hread
    constructor
    · exact List.mem_filterMap.mpr ⟨fe, hfe, by simp [sourceLogOf, hread]⟩
    · simp [sourcePageOf, hread, generate]
  · intro fe hfe contents hread
    constructor
    · simp [sourcePageOf, hread, generate]
    · exact List.mem_map.mpr ⟨fe, hfe, rfl⟩

/-- Witness for C3: with one readable and one unreadable file, both pages
exist, the log holds the formatted message for the unreadable file, and the
readable file's page carries the escaped contents. -/
theorem generateSourceFiles_error_handling_witness :
    (("Error while generating source file bad.js: EACCES" ∈
        (generateSourceFiles genEnvC
          [("good.js", { resolved := "/src/good.js", shortened := "good.js" }),
           ("bad.js", { resolved := "/src/bad.js", shortened := "bad.js" })] none).1)
      ∧ (sourcePageOf genEnvC "utf8"
          ("bad.js", { resolved := "/src/bad.js", shortened := "bad.js" })).docs =
          [(none : Option SourceDoc)])
    ∧ (sourcePageOf genEnvC "utf8"
        ("good.js", { resolved := "/src/good.js", shortened := "good.js" })).docs =
        [some { kind := "source", code := genEnvC.htmlsafe "var a < 1;" }] := by
  constructor
  · exact (generateSourceFiles_error_handling genEnvC
      [("good.js", { resolved := "/src/good.js", shortened := "good.js" }),
       ("bad.js", { resolved := "/src/bad.js", shortened := "bad.js" })] none).2.2.1
      ("bad.js", { resolved := "/src/bad.js", shortened := "bad.js" })
      (by decide) "EACCES" (by rfl)
  · exact ((generateSourceFiles_error_handling genEnvC
      [("good.js", { resolved := "/src/good.js", shortened := "good.js" }),
       ("bad.js", { resolved := "/src/bad.js", shortened := "bad.js" })] none).2.2.2
      ("good.js", { resolved := "/src/good.js", shortened := "good.js" })
      (by decide) "var a < 1;" (by rfl)).1

/-- C9 counterexample: with the configured encoding `latin1`, the generated
source page is still written with encoding `utf8`, so the claim that every
generated HTML file is written with the caller-specified encoding is false.
-/
theorem generate_encoding_counterexample :
    ((generateSourceFiles genEnvC
        [("good.js", { resolved := "/src/good.js", shortened := "good.js" })]
        (some "latin1")).2.map (fun p => p.encoding)) = ["utf8"]
    ∧ ("utf8" : String) ≠ "latin1" := by
  constructor
  · decide
  · decide

/-- C9 (amended): every generated HTML output file — container pages,
source-listing pages, and tutorial pages — is written with the fixed
encoding `utf8`, regardless of the configured encoding; the configured
encoding (defaulting to `utf8`) only selects how source files are read for
listing generation. -/
theorem written_encoding_is_utf8 :
    (∀ (α : Type) (env : GenEnv α) (type title : String) (docs : List α)
        (filename : String) (rl : Bool),
      (generate env type title docs filename rl).encoding = "utf8")
    ∧ (∀ (render : String → TutorialData → String)
        (resolveLinks : String → String) (outdir title header content : String)
        (children : List String) (filename : String),
      (generateTutorial render resolveLinks outdir title header content
        children filename).encoding = "utf8")
    ∧ (∀ (env : GenEnv (Option SourceDoc)) (files : List (String × ShortEntry))
        (encoding : Option String),
      ∀ p ∈ (generateSourceFiles env files encoding).2, p.encoding = "utf8")
    ∧ (∀ (env : GenEnv (Option SourceDoc)) (files : List (String × ShortEntry))
        (encoding : Option String),
      (generateSourceFiles env files encoding).2 =
        files.map (sourcePageOf env (jsOrElse encoding "utf8"))) := by
  refine ⟨fun α env type title docs filename rl => rfl,
    fun render resolveLinks outdir title header content children filename => rfl,
    ?_, ?_⟩
  · intro env files encoding p hp
    rw [generateSourceFiles_eq] at hp
    obtain ⟨fe, _, hfe⟩ := List.mem_map.mp hp
    rw [← hfe]
    rfl
  · intro env files encoding
    rw [generateSourceFiles_eq]

/-- Witness for the amended C9 at a concrete page list. -/
theorem written_encoding_is_utf8_witness :
    ∀ p ∈ (generateSourceFiles genEnvC
        [("good.js", { resolved := "/src/good.js", shortened := "good.js" })]
        (some "latin1")).2, p.encoding = "utf8" :=
  written_encoding_is_utf8.2.2.1 genEnvC
    [("good.js", { resolved := "/src/good.js", shortened := "good.js" })]
    (some "latin1")

/-! ## Step lemmas for the enrichment passes -/

theorem setShortpath_kind (s : String → Option String) (d : Doclet) :
    (setShortpath s d).kind = d.kind := by
  simp only [setShortpath]
  repeat' split
  all_goals rfl

theorem setShortpath_type (s : String → Option String) (d : Doclet) :
    (setShortpath s d).type = d.type := by
  simp only [setShortpath]
  repeat' split
  all_goals rfl

theorem setShortpath_signature (s : String → Option String) (d : Doclet) :
    (setShortpath s d).signature = d.signature := by
  simp only [setShortpath]
  repeat' split
  all_goals rfl

theorem setSignatureStep_kind (E : EnrichEnv) (d : Doclet) :
    (setSignatureStep E d).kind = d.kind := by
  simp only [setSignatureStep, addAttribs, addSignatureReturns, addSignatureParams]
  split
  all_goals rfl

theorem memberStep_of_ne (E : EnrichEnv) (d : Doclet) (h : ¬ d.kind = "member") :
    memberStep E d = d := by
  simp [memberStep, h]

theorem constantStep_of_ne (E : EnrichEnv) (d : Doclet) (h : ¬ d.kind = "constant") :
    constantStep E d = d := by
  simp [constantStep, h]

theorem addSignatureReturns_signature_shape (E : EnrichEnv) (f : Doclet) :
    ∃ inner rts, (addSignatureReturns E f).signature =
      some ("<span class=\"signature\">" ++ inner ++ "</span>" ++
        "<span class=\"type-signature\">" ++ rts ++ "</span>") :=
  ⟨_, _, rfl⟩

theorem needsSignature_congr (d₁ d₂ : Doclet) (hk : d₁.kind = d₂.kind)
    (ht : d₁.type = d₂.type) : needsSignature d₁ = needsSignature d₂ := by
  unfold needsSignature
  rw [hk, ht]

theorem needsSignature_typedef (d : Doclet) (h : d.kind = "typedef") :
    needsSignature d = true ↔
      ∃ t, d.type = some t ∧ ∃ n ∈ t.names, n.toLower = "function" := by
  unfold needsSignature
  rw [h]
  cases ht : d.type with
  | none => simp [ht]
  | some t =>
      cases hn : t.names with
      | nil => simp [ht, hn]
      | cons a l => simp [ht, hn, List.any_eq_true]

/-! ## C1: signature production -/

/-- C1: a doclet of kind `function` or `class` always receives a signature
string — a non-empty pair of span wrappers at minimum; a `typedef` doclet
(whose host-supplied `signature` is absent) receives a signature if and
only if its declared type-name list contains `function` under
case-insensitive comparison — a typedef with no type, an empty type-name
list, or no such entry receives none. -/
theorem signature_production :
    (∀ (E : EnrichEnv) (shortOf : String → Option String) (d : Doclet),
      d.kind = "function" ∨ d.kind = "class" →
      ∃ inner rts,
        (enrichDocletPass2 E shortOf d).signature =
          some ("<span class=\"signature\">" ++ inner ++ "</span>" ++
            "<span class=\"type-signature\">" ++ rts ++ "</span>")
        ∧ 0 < (((enrichDocletPass2 E shortOf d).signature).getD "").length)
    ∧ (∀ (E : EnrichEnv) (shortOf : String → Option String) (d : Doclet),
      d.kind = "typedef" → d.signature = none →
      (((enrichDocletPass2 E shortOf d).signature).isSome = true ↔
        ∃ t, d.type = some t ∧ ∃ n ∈ t.names, n.toLower = "function")) := by
  constructor
  · intro E shortOf d hk
    have hXkind : (setDocletId (E.createLink d) (setShortpath shortOf d)).kind = d.kind :=
      setShortpath_kind shortOf d
    have hns : needsSignature (setDocletId (E.createLink d) (setShortpath shortOf d)) = true := by
      unfold needsSignature
      rw [hXkind]
      rcases hk with h | h <;> simp [h]
    obtain ⟨inner, rts, hR⟩ := addSignatureReturns_signature_shape E
      (addSignatureParams (setDocletId (E.createLink d) (setShortpath shortOf d)))
    have hY : enrichDocletPass2 E shortOf d =
        setAncestors E (setSignatureStep E
          (setDocletId (E.createLink d) (setShortpath shortOf d))) := by
      unfold enrichDocletPass2
      have hk1 : (setAncestors E (setSignatureStep E
          (setDocletId (E.createLink d) (setShortpath shortOf d)))).kind = d.kind := by
        show (setSignatureStep E _).kind = d.kind
        rw [setSignatureStep_kind]
        exact hXkind
      rw [memberStep_of_ne E _ (by rw [hk1]; rcases hk with h | h <;> simp [h]),
        constantStep_of_ne E _ (by rw [hk1]; rcases hk with h | h <;> simp [h])]
    have hsig : (enrichDocletPass2 E shortOf d).signature =
        some ("<span class=\"signature\">" ++ inner ++ "</span>" ++
          "<span class=\"type-signature\">" ++ rts ++ "</span>") := by
      rw [hY]
      show (setSignatureStep E _).signature = _
      rw [setSignatureStep, if_pos hns]
      exact hR
    refine ⟨inner, rts, hsig, ?_⟩
    rw [hsig]
    simp only [Option.getD_some, String.length_append]
    have h24 : ("<span class=\"signature\">" : String).length = 24 := rfl
    omega
  · intro E shortOf d hk hsig
    have hXkind : (setDocletId (E.createLink d) (setShortpath shortOf d)).kind = d.kind :=
      setShortpath_kind shortOf d
    have hXtype : (setDocletId (E.createLink d) (setShortpath shortOf d)).type = d.type :=
      setShortpath_type shortOf d
    have hXsig : (setDocletId (E.createLink d) (setShortpath shortOf d)).signature = none := by
      rw [show (setDocletId (E.createLink d) (setShortpath shortOf d)).signature =
          (setShortpath shortOf d).signature from rfl,
        setShortpath_signature]
      exact hsig
    have hNS : needsSignature (setDocletId (E.createLink d) (setShortpath shortOf d)) =
        needsSignature d :=
      needsSignature_congr _ _ (by rw [hXkind]) (by rw [hXtype])
    have hY : enrichDocletPass2 E shortOf d =
        setAncestors E (setSignatureStep E
          (setDocletId (E.createLink d) (setShortpath shortOf d))) := by
      unfold enrichDocletPass2
      have hk1 : (setAncestors E (setSignatureStep E
          (setDocletId (E.createLink d) (setShortpath shortOf d)))).kind = d.kind := by
        show (setSignatureStep E _).kind = d.kind
        rw [setSignatureStep_kind]
        exact hXkind
      rw [memberStep_of_ne E _ (by rw [hk1, hk]; decide),
        constantStep_of_ne E _ (by rw [hk1, hk]; decide)]
    rw [hY]
    rw [show (setAncestors E (setSignatureStep E
        (setDocletId (E.createLink d) (setShortpath shortOf d)))).signature =
      (setSignatureStep E
        (setDocletId (E.createLink d) (setShortpath shortOf d))).signature from rfl]
    rw [← needsSignature_typedef d hk]
    unfold setSignatureStep
    cases hb : needsSignature d with
    | true =>
        rw [if_pos (hNS.trans hb)]
        obtain ⟨inner, rts, hR⟩ := addSignatureReturns_signature_shape E
          (addSignatureParams (setDocletId (E.createLink d) (setShortpath shortOf d)))
        rw [show (addAttribs E (addSignatureReturns E (addSignatureParams
            (setDocletId (E.createLink d) (setShortpath shortOf d))))).signature =
          (addSignatureReturns E (addSignatureParams
            (setDocletId (E.createLink d) (setShortpath shortOf d)))).signature from rfl]
        rw [hR]
        simp
    | false =>
        rw [if_neg (by rw [hNS, hb]; exact Bool.false_ne_true)]
        rw [hXsig]
        simp

/-- Witness for C1 at a concrete function doclet and a concrete typedef
doclet. -/
theorem signature_production_witness :
    (∃ inner rts,
      (enrichDocletPass2 constEnrichEnv (fun _ => none) funcParamDoclet).signature =
        some ("<span class=\"signature\">" ++ inner ++ "</span>" ++
          "<span class=\"type-signature\">" ++ rts ++ "</span>")
      ∧ 0 < (((enrichDocletPass2 constEnrichEnv (fun _ => none) funcParamDoclet).signature).getD "").length)
    ∧ (((enrichDocletPass2 constEnrichEnv (fun _ => none) typedefFnDoclet).signature).isSome = true ↔
        ∃ t, typedefFnDoclet.type = some t ∧ ∃ n ∈ t.names, n.toLower = "function") :=
  ⟨signature_production.1 constEnrichEnv (fun _ => none) funcParamDoclet (Or.inl rfl),
   signature_production.2 constEnrichEnv (fun _ => none) typedefFnDoclet rfl rfl⟩

/-! ## C5: what enrichment does and does not touch -/

/-- C5 counterexample: the enrichment passes do not leave every
host-supplied field unchanged — a `constant` doclet's `kind` becomes
`member`, its `examples` entries are rewritten into caption/code records,
and its `see` entries are rewritten into anchor links. -/
theorem enrichDoclet_mutates_host_fields :
    (enrichDoclet constEnrichEnv (fun _ => none) constExampleDoclet).kind ≠
        constExampleDoclet.kind
    ∧ (enrichDoclet constEnrichEnv (fun _ => none) constExampleDoclet).examples ≠
        constExampleDoclet.examples
    ∧ (enrichDoclet constEnrichEnv (fun _ => none) constExampleDoclet).see ≠
        constExampleDoclet.see := by
  refine ⟨by decide, by decide, by decide⟩

theorem setShortpath_hostFields (s : String → Option String) (d : Doclet) :
    hostFields (setShortpath s d) = hostFields d := by
  simp only [setShortpath]
  repeat' split
  all_goals simp_all [hostFields]

theorem setSignatureStep_hostFields (E : EnrichEnv) (d : Doclet) :
    hostFields (setSignatureStep E d) = hostFields d := by
  simp only [setSignatureStep]
  split
  all_goals rfl

theorem memberStep_hostFields (E : EnrichEnv) (d : Doclet) :
    hostFields (memberStep E d) = hostFields d := by
  simp only [memberStep]
  split
  all_goals rfl

theorem memberStep_kind (E : EnrichEnv) (d : Doclet) :
    (memberStep E d).kind = d.kind := by
  simp only [memberStep]
  split
  all_goals rfl

theorem constantStep_hostFields (E : EnrichEnv) (d : Doclet) :
    hostFields (constantStep E d) = hostFields d := by
  simp only [constantStep]
  split
  all_goals rfl

theorem constantStep_kind (E : EnrichEnv) (d : Doclet) :
    (constantStep E d).kind = (if d.kind = "constant" then "member" else d.kind) := by
  simp only [constantStep]
  split
  next h => simp [h]
  next h => simp [h]

/-- C5 (amended): the enrichment passes decorate doclets with computed
fields (signature, attribs, id, ancestors, meta.shortpath) and additionally
rewrite `examples`, `see`, and the kind of constants; the host fields
name, longname, description, type, params, returns — and the path and
filename inside `meta` — are unchanged, and `kind` is unchanged for every
non-constant doclet. -/
theorem enrichDoclet_preserves_host_fields (E : EnrichEnv)
    (shortOf : String → Option String) (d : Doclet) :
    (enrichDoclet E shortOf d).name = d.name
    ∧ (enrichDoclet E shortOf d).longname = d.longname
    ∧ (enrichDoclet E shortOf d).description = d.description
    ∧ (enrichDoclet E shortOf d).type = d.type
    ∧ (enrichDoclet E shortOf d).params = d.params
    ∧ (enrichDoclet E shortOf d).returns = d.returns
    ∧ (enrichDoclet E shortOf d).kind =
        (if d.kind = "constant" then "member" else d.kind)
    ∧ ((enrichDoclet E shortOf d).meta).map (fun m => (m.path, m.filename)) =
        (d.meta).map (fun m => (m.path, m.filename)) := by
  have hp1 : hostFields (enrichDocletPass1 E d) = hostFields d := rfl
  have hp1k : (enrichDocletPass1 E d).kind = d.kind := rfl
  have hbig : hostFields (enrichDoclet E shortOf d) = hostFields d := by
    unfold enrichDoclet enrichDocletPass2
    rw [constantStep_hostFields, memberStep_hostFields]
    rw [show hostFields (setAncestors E (setSignatureStep E (setDocletId
        (E.createLink (enrichDocletPass1 E d))
        (setShortpath shortOf (enrichDocletPass1 E d))))) =
      hostFields (setSignatureStep E (setDocletId
        (E.createLink (enrichDocletPass1 E d))
        (setShortpath shortOf (enrichDocletPass1 E d)))) from rfl]
    rw [setSignatureStep_hostFields]
    rw [show hostFields (setDocletId (E.createLink (enrichDocletPass1 E d))
        (setShortpath shortOf (enrichDocletPass1 E d))) =
      hostFields (setShortpath shortOf (enrichDocletPass1 E d)) from rfl]
    rw [setShortpath_hostFields]
    exact hp1
  have hkind : (enrichDoclet E shortOf d).kind =
      (if d.kind = "constant" then "member" else d.kind) := by
    unfold enrichDoclet enrichDocletPass2
    rw [constantStep_kind, memberStep_kind]
    rw [show (setAncestors E (setSignatureStep E (setDocletId
        (E.createLink (enrichDocletPass1 E d))
        (setShortpath shortOf (enrichDocletPass1 E d))))).kind =
      (setSignatureStep E (setDocletId
        (E.createLink (enrichDocletPass1 E d))
        (setShortpath shortOf (enrichDocletPass1 E d)))).kind from rfl]
    rw [setSignatureStep_kind]
    rw [show (setDocletId (E.createLink (enrichDocletPass1 E d))
        (setShortpath shortOf (enrichDocletPass1 E d))).kind =
      (setShortpath shortOf (enrichDocletPass1 E d)).kind from rfl]
    rw [setShortpath_kind, hp1k]
  exact ⟨congrArg (fun t => t.1) hbig, congrArg (fun t => t.2.1) hbig,
    congrArg (fun t => t.2.2.1) hbig, congrArg (fun t => t.2.2.2.1) hbig,
    congrArg (fun t => t.2.2.2.2.1) hbig, congrArg (fun t => t.2.2.2.2.2.1) hbig,
    hkind, congrArg (fun t => t.2.2.2.2.2.2) hbig⟩

/-- Witness for the amended C5 at a concrete doclet and environment. -/
theorem enrichDoclet_preserves_host_fields_witness :
    (enrichDoclet constEnrichEnv (fun _ => none) funcFooNoDesc).name =
        funcFooNoDesc.name
    ∧ (enrichDoclet constEnrichEnv (fun _ => none) funcFooNoDesc).kind =
        (if funcFooNoDesc.kind = "constant" then "member" else funcFooNoDesc.kind) :=
  ⟨(enrichDoclet_preserves_host_fields constEnrichEnv (fun _ => none) funcFooNoDesc).1,
   (enrichDoclet_preserves_host_fields constEnrichEnv
     (fun _ => none) funcFooNoDesc).2.2.2.2.2.2.1⟩

/-! ## C8: formatExample -/

theorem ciStrip_append_self (pat : List Char) :
    ∀ r, ciStrip pat (pat ++ r) = some r := by
  induction pat with
  | nil => intro r; rfl
  | cons p ps ih => intro r; simp [ciStrip, ih]

theorem contMatch_noWs_none (code : List Char) (h : headNotWs code = true) :
    contMatch code = none := by
  cases code with
  | nil => rfl
  | cons c cs =>
      have hc : isWs c = false := by simpa [headNotWs] using h
      simp [contMatch, hc]

theorem contMatch_newline (code : List Char) (h : headNotWs code = true) :
    contMatch ('\n' :: code) = some code := by
  have hne : code ≠ [] := by
    intro hnil
    rw [hnil] at h
    exact absurd h (by decide)
  rw [show contMatch ('\n' :: code) =
      (if isWs '\n' then
        match contMatch code with
        | some r => some r
        | none =>
            if ('\n' = '\n' || '\n' = '\r') && !code.isEmpty then some code
            else none
      else none) from rfl]
  rw [contMatch_noWs_none code h]
  simp [hne, show isWs '\n' = true from rfl]

theorem lazyScan_cons_eq (aR : List Char) (c : Char) (rest : List Char) :
    lazyScan aR (c :: rest) =
      (match ciStrip "</caption>".data rest with
       | some after =>
           (match contMatch after with
            | some code2 => some ((c :: aR).reverse, code2)
            | none => lazyScan (c :: aR) rest)
       | none => lazyScan (c :: aR) rest) := rfl

theorem lazyScan_cons_of_none (aR : List Char) (c : Char) (rest : List Char)
    (h : ciStrip "</caption>".data rest = none) :
    lazyScan aR (c :: rest) = lazyScan (c :: aR) rest := by
  rw [lazyScan_cons_eq, h]

theorem lazyScan_cons_of_close (aR : List Char) (c : Char)
    (rest after code2 : List Char)
    (h1 : ciStrip "</caption>".data rest = some after)
    (h2 : contMatch after = some code2) :
    lazyScan aR (c :: rest) = some ((c :: aR).reverse, code2) := by
  rw [lazyScan_cons_eq, h1]
  simp only [h2]

theorem lazyScan_through (capl : List Char) :
    ∀ (accRev code : List Char),
      capl ≠ [] →
      (∀ j, j < capl.length → 0 < j →
        ciStrip "</caption>".data
          (capl.drop j ++ "</caption>".data ++ '\n' :: code) = none) →
      headNotWs code = true →
      lazyScan accRev (capl ++ "</caption>".data ++ '\n' :: code) =
        some (accRev.reverse ++ capl, code) := by
  induction capl with
  | nil => intro _ _ h _ _; exact absurd rfl h
  | cons c cs ih =>
      intro accRev code _ hno hcode
      show lazyScan accRev (c :: (cs ++ "</caption>".data ++ '\n' :: code)) = _
      cases cs with
      | nil =>
          rw [show (([] : List Char) ++ "</caption>".data ++ '\n' :: code) =
            "</caption>".data ++ '\n' :: code from by simp]
          rw [lazyScan_cons_of_close accRev c _ ('\n' :: code) code
            (ciStrip_append_self _ _) (contMatch_newline code hcode)]
          simp
      | cons c2 cs2 =>
          have hfail : ciStrip "</caption>".data
              ((c2 :: cs2) ++ "</caption>".data ++ '\n' :: code) = none := by
            have := hno 1 (by simp) (by omega)
            simpa using this
          rw [lazyScan_cons_of_none accRev c _ hfail]
          rw [ih (c :: accRev) code (by simp) ?_ hcode]
          · simp
          · intro j hjlen hj
            have := hno (j + 1) (by simpa using Nat.succ_lt_succ hjlen) (by omega)
            simpa using this

theorem dropWhile_eq_drop_of_takeWhile (l : List Char) :
    ∃ k, k ≤ l.length ∧ l.dropWhile isWs = l.drop k := by
  induction l with
  | nil => exact ⟨0, by simp, rfl⟩
  | cons c cs ih =>
      by_cases h : isWs c = true
      · obtain ⟨k, hk, hd⟩ := ih
        refine ⟨k + 1, by simp; omega, ?_⟩
        rw [List.dropWhile_cons]
        simp only [h, if_true]
        simpa using hd
      · refine ⟨0, by simp, ?_⟩
        rw [List.dropWhile_cons]
        simp [h]

theorem matchCaption_strip_some (ex rest : List Char)
    (h : ciStrip "<caption>".data (ex.dropWhile isWs) = some rest) :
    matchCaption ex = lazyScan [] rest := by
  unfold matchCaption
  rw [h]

theorem matchCaption_strip_none (ex : List Char)
    (h : ciStrip "<caption>".data (ex.dropWhile isWs) = none) :
    matchCaption ex = none := by
  unfold matchCaption
  rw [h]

theorem formatExample_of_match (ex : String) (g1 g3 : List Char)
    (h : matchCaption ex.data = some (g1, g3)) :
    formatExample ex =
      { caption := if g1.isEmpty then "" else ⟨g1⟩
        code := if g3.isEmpty then ex else ⟨g3⟩ } := by
  unfold formatExample
  rw [h]

theorem formatExample_of_no_match (ex : String)
    (h : matchCaption ex.data = none) :
    formatExample ex = { caption := "", code := ex } := by
  unfold formatExample
  rw [h]

theorem formatExample_caption_split (cap code : String)
    (hcap : cap.data ≠ [])
    (hno : ∀ j, j < cap.data.length → 0 < j →
      ciStrip "</caption>".data
        (cap.data.drop j ++ "</caption>".data ++ '\n' :: code.data) = none)
    (hcode : headNotWs code.data = true) :
    formatExample ("<caption>" ++ cap ++ "</caption>" ++ "\n" ++ code) =
      { caption := cap, code := code } := by
  have hcodene : code.data ≠ [] := by
    intro hnil
    rw [hnil] at hcode
    exact absurd hcode (by decide)
  have hdata : ("<caption>" ++ cap ++ "</caption>" ++ "\n" ++ code).data =
      "<caption>".data ++ (cap.data ++ "</caption>".data ++ '\n' :: code.data) := by
    simp [String.data_append]
  have hstrip : ciStrip "<caption>".data
      ((("<caption>" ++ cap ++ "</caption>" ++ "\n" ++ code).data).dropWhile isWs) =
      some (cap.data ++ "</caption>".data ++ '\n' :: code.data) := by
    rw [hdata]
    exact ciStrip_append_self _ _
  have hmatch : matchCaption (("<caption>" ++ cap ++ "</caption>" ++ "\n" ++ code)).data =
      some (cap.data, code.data) := by
    rw [matchCaption_strip_some _ _ hstrip]
    rw [lazyScan_through cap.data [] code.data hcap hno hcode]
    simp
  rw [formatExample_of_match _ _ _ hmatch]
  have e1 : cap.data.isEmpty = false := by
    cases h : cap.data with
    | nil => exact absurd h hcap
    | cons a l => rfl
  have e2 : code.data.isEmpty = false := by
    cases h : code.data with
    | nil => exact absurd h hcodene
    | cons a l => rfl
  rw [e1, e2]
  show ({ caption := (⟨cap.data⟩ : String), code := (⟨code.data⟩ : String) } :
      FormattedExample) = { caption := cap, code := code }
  rfl

theorem formatExample_no_caption (ex : String)
    (hno : ∀ n, n < ex.data.length →
      ciStrip "<caption>".data (ex.data.drop n) = none) :
    formatExample ex = { caption := "", code := ex } := by
  obtain ⟨k, hk, hdw⟩ := dropWhile_eq_drop_of_takeWhile ex.data
  refine formatExample_of_no_match ex (matchCaption_strip_none ex.data ?_)
  rw [hdw]
  rcases Nat.lt_or_ge k ex.data.length with h | h
  · exact hno k h
  · have hnil : ex.data.drop k = [] := List.drop_eq_nil_of_le h
    rw [hnil]
    rfl

/-- C8: for every example string of the form
`<caption>` + text + `</caption>` + newline + code — with the inner text
non-empty and containing no earlier (case-insensitive) close tag, and the
code non-empty and not starting with whitespace — `formatExample` returns
the tag's inner text as `caption` and the remainder after the newline as
`code`; and for every example string with no (case-insensitive) caption
tag at any position, it returns an empty `caption` and the original string
verbatim as `code`. -/
theorem formatExample_spec :
    (∀ cap code : String, cap.data ≠ [] →
      (∀ j, j < cap.data.length → 0 < j →
        ciStrip "</caption>".data
          (cap.data.drop j ++ "</caption>".data ++ '\n' :: code.data) = none) →
      headNotWs code.data = true →
      formatExample ("<caption>" ++ cap ++ "</caption>" ++ "\n" ++ code) =
        { caption := cap, code := code })
    ∧ (∀ ex : String,
      (∀ n, n < ex.data.length →
        ciStrip "<caption>".data (ex.data.drop n) = none) →
      formatExample ex = { caption := "", code := ex }) :=
  ⟨formatExample_caption_split, formatExample_no_caption⟩

/-- Witness for C8: a concrete captioned example splits into caption and
code, and a concrete caption-free example comes back verbatim. -/
theorem formatExample_spec_witness :
    formatExample ("<caption>" ++ "Hi" ++ "</caption>" ++ "\n" ++ "x = 1;") =
      { caption := "Hi", code := "x = 1;" }
    ∧ formatExample "plain text" = { caption := "", code := "plain text" } :=
  ⟨formatExample_spec.1 "Hi" "x = 1;" (by decide) (by decide) (by decide),
   formatExample_spec.2 "plain text" (by decide)⟩

end Minami

